import Mathlib

/-!
Verification development for the fragment-editor text-transformation API.

The definitions below are a shallow embedding of the Python source:

* `app/config/text_transform.py`         — configuration constants
* `app/utils/text_transform.py`          — `TransformationRequest`
  (`_should_expand`, `_calculate_target_percentages`, `parse_ai_response`,
  `_create_placeholder_fragment`, `_create_placeholder_length`,
  `_validate_version`, `_validate_percentages`) and `format_version_details`
* `app/utils/request_validator.py`       — `RequestValidator`
* `app/utils/response_formatter.py`      — `ResponseFormatter`

Machine integers are modelled as `Int`/`Nat` (Python integers are unbounded,
so no wrap-around modelling is needed).  Python float arithmetic
`round(a / b)` / `round(a / b, 1)` on the quotients appearing in the source
(`n / 100`, `tokens * 100 / original`) is modelled by exact rational
round-half-to-even, which agrees with the float computation at every input
exercised here (the only representability-sensitive points are exact halves
`x.5`, which are exactly representable as binary floats at these magnitudes).
Fallible code (Python `raise` / `KeyError`) is modelled with `Except`.
-/

namespace FragmentEditor

/-! ## Configuration constants — `app/config/text_transform.py` -/

def DEFAULT_PERCENTAGE : Int := 100
def MIN_LENGTH_EXPANSION : Int := 110
def MAX_LENGTH_EXPANSION : Int := 300
def DEFAULT_LENGTH_EXPANSION : Int := 150
def MAX_LENGTH_COMPRESSION : Int := 90
def DEFAULT_LENGTH_COMPRESSION : Int := 50
def MIN_LENGTH_COMPRESSION : Int := 10
def DEFAULT_STEP_SIZE : Int := 25
def MIN_STEP_SIZE : Int := 10
def MAX_STEP_SIZE : Int := 50
def MAX_VERSIONS : Int := 5
def DEFAULT_VERSIONS : Int := 1

/-! ## Python semantics helpers -/

/-- Python `round(num / den)` for integers `num`, `den` with `den > 0`:
round half to even (banker's rounding) of the exact rational `num / den`. -/
def pyRoundInt (num : Int) (den : Int) : Int :=
  let f := Int.fdiv num den
  let r := num - f * den
  if 2 * r < den then f
  else if 2 * r > den then f + 1
  else if f % 2 = 0 then f else f + 1

/-- Python `round(q, 1)` of an exact rational, returned as a rational with
denominator dividing 10. -/
def pyRound1 (num : Int) (den : Int) : ℚ :=
  (pyRoundInt (10 * num) den : ℚ) / 10

/-- Ascending `range` loop; `fuel` bounds the number of iterations (for a
positive `step` the walk advances by at least one per iteration, so
`(stop - start).toNat` iterations always suffice). -/
def pyRangeUpGo (stop step : Int) : Nat → Int → List Int
  | 0, _ => []
  | fuel + 1, start =>
    if start < stop then start :: pyRangeUpGo stop step fuel (start + step)
    else []

def pyRangeUp (start stop step : Int) : List Int :=
  pyRangeUpGo stop step (stop - start).toNat start

/-- Descending `range` loop, mirror image of `pyRangeUpGo`. -/
def pyRangeDownGo (stop step : Int) : Nat → Int → List Int
  | 0, _ => []
  | fuel + 1, start =>
    if stop < start then start :: pyRangeDownGo stop step fuel (start + step)
    else []

def pyRangeDown (start stop step : Int) : List Int :=
  pyRangeDownGo stop step (start - stop).toNat start

/-- Python `range(start, stop, step)` over `Int` (for `step ≠ 0`); an empty
list is returned for `step = 0` (the source never reaches that case: callers
either clamp the step away from `0` or raise beforehand, which the embeddings
model with `Except`). -/
def pyRange (start stop step : Int) : List Int :=
  if 0 < step then pyRangeUp start stop step
  else if step < 0 then pyRangeDown start stop step
  else []

/-- Space-delimited word counting: `inWord` records whether the previous
character belonged to a word. -/
def countWordsAux : List Char → Bool → Nat
  | [], _ => 0
  | c :: rest, inWord =>
    if c = ' ' then countWordsAux rest false
    else (if inWord then 0 else 1) + countWordsAux rest true

/-- Token Estimator.  Modelled from the spec: the source's `count_tokens`
(`app/utils/ai_helpers.py`) delegates to the external `tiktoken`
`cl100k_base` tokenizer, which is not part of this repository; spec §4.1
fixes the policy as whitespace-delimited word count ("token counts are a
proxy, whitespace-split word counts"). -/
def count_tokens (text : String) : Nat :=
  countWordsAux text.toList false

/-! ## Request parameters

Python passes a JSON-derived `params` dict around.  `Option` models key
presence (`some v` = key present with value `v`); unknown keys are kept as a
list of their names. -/

structure Params where
  target_percentage : Option Int := none
  target_percentages : Option (List Int) := none
  start_percentage : Option Int := none
  steps_percentage : Option Int := none
  versions : Option Int := none
  style : Option String := none
  tone : Option String := none
  aspects : Option (List String) := none
  fragment_style : Option String := none
  extra_keys : List String := []
  deriving Repr, DecidableEq

/-- Request content: a single string or a list of fragments. -/
inductive ContentInput where
  | single (text : String)
  | frags (items : List String)
  deriving Repr, DecidableEq

def ContentInput.list : ContentInput → List String
  | .single t => [t]
  | .frags ts => ts

def ContentInput.isFragments : ContentInput → Bool
  | .single _ => false
  | .frags _ => true

/-! ## Planner — `TransformationRequest` in `app/utils/text_transform.py` -/

/-- One entry of the transformation plan (a dict
`{"target_percentage": _, "versions_per_length": _}` in the source). -/
structure LengthConfig where
  target_percentage : Int
  versions_per_length : Int
  deriving Repr, DecidableEq

/-- `TransformationRequest._should_expand`.  Python truthiness: a
`target_percentage` of `0` (or an absent key) falls through to
`target_percentages`, then to the operation name. -/
def shouldExpand (operation : String) (params : Params) : Bool :=
  match params.target_percentage with
  | some t =>
    if t ≠ 0 then t > 100
    else match params.target_percentages with
      | some (h :: tl) => (tl.foldl max h) > 100
      | _ => operation == "expand"
  | none =>
    match params.target_percentages with
    | some (h :: tl) => (tl.foldl max h) > 100
    | _ => operation == "expand"

/-- `TransformationRequest._calculate_target_percentages`.  The `KeyError`
raised by `self.params['target_percentage']` when `steps_percentage` is
present but `target_percentage` is absent is modelled as `Except.error`. -/
def calculateTargetPercentages (isExpansion : Bool) (params : Params) :
    Except String (List LengthConfig) :=
  match params.target_percentages with
  | some ps =>
    .ok (ps.map (fun p => ⟨p, 1⟩))
  | none =>
    match params.steps_percentage with
    | some sp =>
      let step := max sp MIN_STEP_SIZE
      match params.target_percentage with
      | none => .error "KeyError: target_percentage"
      | some target =>
        let vpl := min (params.versions.getD DEFAULT_VERSIONS) MAX_VERSIONS
        if isExpansion then
          let start := params.start_percentage.getD
            (min (DEFAULT_PERCENTAGE + step) target)
          .ok ((pyRange start (target + step) step).map (fun p => ⟨p, vpl⟩))
        else
          let start := params.start_percentage.getD
            (max (DEFAULT_PERCENTAGE - step) target)
          .ok ((pyRange start (target - step) (-step)).map (fun p => ⟨p, vpl⟩))
    | none =>
      let target := params.target_percentage.getD
        (if isExpansion then DEFAULT_LENGTH_EXPANSION
         else DEFAULT_LENGTH_COMPRESSION)
      let versions := min (params.versions.getD DEFAULT_VERSIONS) MAX_VERSIONS
      .ok [⟨target, versions⟩]

/-- `TransformationRequest._validate_percentages`: `none` when the plan is
acceptable, otherwise the error code raised as a 400. -/
def validatePercentages (targets : List LengthConfig) : Option String :=
  if targets = [] then some "invalid_targets"
  else if targets.all
    (fun c => 1 ≤ c.versions_per_length ∧ c.versions_per_length ≤ MAX_VERSIONS)
  then none
  else some "invalid_versions"

/-! ## LLM response model

The raw completion is a JSON-derived dict.  `Option` models key presence.
`RVersion.reported_tokens` / `RVersion.reported_percentage` stand for any
self-reported numeric fields the LLM may embed next to `text`; the source
never reads them. -/

structure RVersion where
  text : Option String := none
  reported_tokens : Option Int := none
  reported_percentage : Option ℚ := none
  deriving Repr, DecidableEq

structure RLength where
  target_percentage : Option Int := none
  versions : Option (List RVersion) := none
  deriving Repr, DecidableEq

structure RFragment where
  lengths : Option (List RLength) := none
  deriving Repr, DecidableEq

structure RResponse where
  fragments : Option (List RFragment) := none
  lengths : Option (List RLength) := none
  deriving Repr, DecidableEq

/-! ## Reconciler part 1 — `TransformationRequest.parse_ai_response`

Warnings are f-strings in the source; each constructor carries the data
interpolated into the message (indices are 0-based here, the message prints
`index + 1`). -/

inductive PWarn where
  /-- "Response missing 'fragments' key - reconstructing structure" -/
  | missingFragmentsKey
  /-- "Fragment {i+1} missing from response - using original" -/
  | fragmentMissing (i : Nat)
  /-- "Fragment {i+1} missing lengths - using original" -/
  | fragmentNoLengths (i : Nat)
  /-- "Fragment {i+1} has fewer lengths than expected ({actual}/{expected})" -/
  | fewerLengths (i actual expected : Nat)
  /-- "Fragment {i+1}, length {j+1} missing versions - using original" -/
  | missingVersions (i j : Nat)
  /-- "Fragment {i+1}, length {j+1} has fewer versions than expected
  ({actual}/{expected})" -/
  | fewerVersions (i j actual : Nat) (expected : Int)
  /-- "Error processing fragment {i+1} - using original" -/
  | fragmentError (i : Nat)
  deriving Repr, DecidableEq

/-- `[{'text': original} for _ in range(count)]` (Python `range` of a
non-positive count is empty). -/
def placeholderVersions (origText : String) (count : Int) : List RVersion :=
  List.replicate count.toNat {text := some origText}

/-- `TransformationRequest._create_placeholder_length`. -/
def createPlaceholderLength (targetPct : Int) (origText : String)
    (versionsParam : Int) : RLength :=
  { target_percentage := some targetPct
    versions := some (placeholderVersions origText versionsParam) }

/-- `TransformationRequest._create_placeholder_fragment`. -/
def createPlaceholderFragment (origText : String)
    (targets : List LengthConfig) (versionsParam : Int) : RFragment :=
  { lengths := some (targets.map (fun c =>
      { target_percentage := some c.target_percentage
        versions := some (placeholderVersions origText versionsParam) })) }

/-- The per-length version handling of the fragment branch: a length entry
without a `versions` key gets a single original-text version (and no
padding); otherwise the list is padded up to `expectedV` with original-text
versions when short, and left untouched (in particular, not truncated) when
long. -/
def padLengthVersions (origText : String) (expectedV : Int) (i j : Nat)
    (l : RLength) : RLength × List PWarn :=
  match l.versions with
  | none =>
    ({ l with versions := some [{text := some origText}] },
     [.missingVersions i j])
  | some vs =>
    if (vs.length : Int) < expectedV then
      ({ l with versions := some (vs ++ List.replicate
          (expectedV.toNat - vs.length) {text := some origText}) },
       [.fewerVersions i j vs.length expectedV])
    else (l, [])

/-- One iteration of the fragment loop of `parse_ai_response` (the
iterations are independent: the loop only appends to `processed_fragments`
and `warnings`).  The source's per-fragment `except` clause
(`PWarn.fragmentError`) is unreachable here because none of the modelled
operations can raise. -/
def processFragmentI (cs : List String) (versionsParam : Int)
    (targets : List LengthConfig) (fs : List RFragment) (i : Nat) :
    RFragment × List PWarn :=
  let origText := cs.getD i ""
  if i < fs.length then
    let fragment := fs.getD i {}
    match fragment.lengths with
    | none =>
      (createPlaceholderFragment origText targets versionsParam,
       [.fragmentNoLengths i])
    | some ls =>
      let expectedL := targets.length
      let actualL := ls.length
      let ls2 :=
        if actualL < expectedL then
          ls ++ (List.range (expectedL - actualL)).map (fun k =>
            createPlaceholderLength
              ((targets.getD (actualL + k) ⟨0, 0⟩).target_percentage)
              origText versionsParam)
        else ls
      let w1 : List PWarn :=
        if actualL < expectedL then [PWarn.fewerLengths i actualL expectedL]
        else []
      let processed := (List.range ls2.length).map
        (fun j => padLengthVersions origText versionsParam i j (ls2.getD j {}))
      ({ lengths := some (processed.map Prod.fst) },
       w1 ++ (processed.map Prod.snd).flatten)
  else
    (createPlaceholderFragment origText targets versionsParam,
     [.fragmentMissing i])

/-- The fragment branch of `parse_ai_response`: never raises; mutates the
response in place (modelled by rebuilding it) and collects warnings (the
source stores them under `response['metadata']['warnings']`). -/
def parseFragments (cs : List String) (versionsParam : Int)
    (targets : List LengthConfig) (resp : RResponse) :
    RResponse × List PWarn :=
  let (fs, w0) :=
    match resp.fragments with
    | none => (([] : List RFragment), [PWarn.missingFragmentsKey])
    | some fs => (fs, [])
  let results := (List.range cs.length).map
    (processFragmentI cs versionsParam targets fs)
  ({ resp with fragments := some (results.map Prod.fst) },
   w0 ++ (results.map Prod.snd).flatten)

/-- `TransformationRequest._validate_version`: raises (`.error`) when the
version has no `text`, or — for expand/compress — when its token count
deviates from the target token count by more than `tolerance = 2.0` times
the target (`abs(actual - target_tokens) > target_tokens * 2.0`). -/
def validateVersion (operation : String) (content : String)
    (targets : List LengthConfig) (lengthIdx : Nat) (v : RVersion) :
    Except String Unit :=
  match v.text with
  | none => .error "Missing text in version"
  | some txt =>
    if operation == "rephrase" then .ok ()
    else
      let origTokens : Int := count_tokens content
      let targetPct := (targets.getD lengthIdx ⟨0, 0⟩).target_percentage
      let targetTokens := pyRoundInt (origTokens * targetPct) 100
      let actualTokens : Int := count_tokens txt
      if |actualTokens - targetTokens| > targetTokens * 2 then
        .error "token count differs significantly from target"
      else .ok ()

def checkVersions (operation : String) (content : String)
    (targets : List LengthConfig) (lengthIdx : Nat) :
    List RVersion → Except String Unit
  | [] => .ok ()
  | v :: rest => do
    let _ ← validateVersion operation content targets lengthIdx v
    checkVersions operation content targets lengthIdx rest

/-- The per-length handling of the non-fragment branch of
`parse_ai_response`: a missing `versions` key raises; otherwise the list is
truncated to `MAX_VERSIONS` and every remaining version is validated.
No padding happens in this branch. -/
def checkLengths (operation : String) (content : String)
    (targets : List LengthConfig) (i : Nat) :
    List RLength → Except String (List RLength)
  | [] => .ok []
  | l :: rest =>
    match l.versions with
    | none => .error "Missing versions key in length config"
    | some vs => do
      let vs2 := vs.take MAX_VERSIONS.toNat
      let _ ← checkVersions operation content targets i vs2
      let r ← checkLengths operation content targets (i + 1) rest
      .ok ({ l with versions := some vs2 } :: r)

/-- The non-fragment branch of `parse_ai_response`: a missing `lengths` key
or fewer lengths than planned raises `ValueError`, which the enclosing
handler re-raises as `APIRequestError` (status 400) — the request aborts.
Surplus lengths are truncated to the plan size.  The `warnings` list of this
branch is never appended to. -/
def parseSingle (operation : String) (content : String)
    (targets : List LengthConfig) (resp : RResponse) :
    Except String (RResponse × List PWarn) :=
  match resp.lengths with
  | none => .error "Missing lengths key in response"
  | some ls =>
    if ls.length < targets.length then
      .error "Expected at least as many lengths as planned"
    else do
      let ls2 ← checkLengths operation content targets 0
        (ls.take targets.length)
      .ok ({ resp with lengths := some ls2 }, [])

/-- `TransformationRequest.__init__` for the plan computation:
rephrase gets the fixed `[{100, versions}]` plan with no validation;
expand/compress compute the plan and validate it (`_validate_percentages`),
raising a 400 on failure; the `KeyError` of the steps branch escapes as an
uncaught exception. -/
def initTransform (operation : String) (params : Params) :
    Except String (Bool × List LengthConfig) :=
  if operation == "rephrase" then
    .ok (false, [⟨100, params.versions.getD DEFAULT_VERSIONS⟩])
  else if operation == "expand" || operation == "compress" then
    let isExp := shouldExpand operation params
    match calculateTargetPercentages isExp params with
    | .error e => .error e
    | .ok targets =>
      match validatePercentages targets with
      | some code => .error code
      | none => .ok (isExp, targets)
  else .error "Unknown operation"

/-- `TransformationRequest` construction followed by `parse_ai_response`. -/
def transformParse (operation : String) (content : ContentInput)
    (params : Params) (resp : RResponse) :
    Except String (RResponse × List PWarn) :=
  match initTransform operation params with
  | .error e => .error e
  | .ok (_, targets) =>
    match content with
    | .frags cs =>
      .ok (parseFragments cs (params.versions.getD DEFAULT_VERSIONS)
        targets resp)
    | .single c => parseSingle operation c targets resp

/-! ## Reconciler part 2 — `ResponseFormatter` in
`app/utils/response_formatter.py` -/

/-- Warnings collected by `ResponseFormatter.format_response`.  The source
emits dicts `{"key": "i.j.k", "code": ..., "message": ...}`; each constructor
carries the code and the indices interpolated into key and message.
`passedIn` stands for a validator warning handed in through the
`validation_warnings` argument. -/
inductive FWarn where
  | passedIn (field : String)
  | fragment_missing (i : Nat)
  | length_missing (i j : Nat)
  | version_missing (i j k : Nat)
  | target_deviation (i j k : Nat)
  | version_error (i j k : Nat)
  | length_error (i j : Nat)
  | fragment_error (i : Nat)
  deriving Repr, DecidableEq

structure OVersion where
  text : String
  final_tokens : Nat
  final_percentage : ℚ
  deriving Repr, DecidableEq

structure OLength where
  target_percentage : Int
  target_tokens : Int
  versions : List OVersion
  deriving Repr, DecidableEq

structure OFragment where
  lengths : List OLength
  deriving Repr, DecidableEq

/-- The `validation` block of the response metadata (`tolerance` is the
fixed `0.2`). -/
structure ValidationMeta where
  fragments_expected : Nat
  fragments_received : Nat
  fragments_passed : Bool
  lengths_expected : List Int
  lengths_passed : Bool
  deriving Repr, DecidableEq

structure FormatResult where
  typeFragments : Bool
  fragments : List OFragment
  mode : String
  operation : String
  validation : ValidationMeta
  step_size : Option Int
  start_percentage : Option Int
  warnings : Option (List FWarn)
  deriving Repr, DecidableEq

/-- `ResponseFormatter._determine_mode`.  `params.get("target_percentages")`
is a truthiness test (present and non-empty); the `steps_percentage` /
`start_percentage` tests are key-presence tests. -/
def determineMode (params : Params) : String :=
  match params.target_percentages with
  | some (_ :: _) => "custom"
  | _ =>
    if params.steps_percentage.isSome || params.start_percentage.isSome then
      "staggered"
    else "fixed"

/-- `ResponseFormatter._get_target_percentages`.  `.error` models the
exceptions escaping to the enclosing `format_response` handler: the
`KeyError` on `params["target_percentage"]` and the `ValueError` of
`range(..., 0)`. -/
def getTargetPercentagesF (params : Params) (operation : String) :
    Except Unit (List Int) :=
  let isExpansion := operation == "expand"
  match params.target_percentages with
  | some ps => .ok (ps.filter (fun p => p ≠ 100))
  | none =>
    match params.steps_percentage with
    | some step =>
      match params.target_percentage with
      | none => .error ()
      | some target =>
        if step = 0 then .error ()
        else
          let start := params.start_percentage.getD DEFAULT_PERCENTAGE
          let ps :=
            if isExpansion then pyRange start (target + step) step
            else pyRange start (target - step) (-step)
          .ok (ps.filter (fun p => p ≠ 100))
    | none =>
      let target := params.target_percentage.getD
        (if isExpansion then DEFAULT_LENGTH_EXPANSION
         else DEFAULT_LENGTH_COMPRESSION)
      .ok (if target = 100 then [] else [target])

/-- `ResponseFormatter._create_placeholder_length`: every version is the
original text with `final_percentage` 100.0. -/
def formatPlaceholderLength (target : Int) (origText : String)
    (versionsParam : Int) : OLength :=
  let origTok := count_tokens origText
  { target_percentage := target
    target_tokens := pyRoundInt (origTok * target) 100
    versions := List.replicate versionsParam.toNat ⟨origText, origTok, 100⟩ }

/-- `ResponseFormatter._create_placeholder_fragment`: note the source
hardcodes `'expand'` as the operation when recomputing the target
percentages.  `.error` models the exceptions `_get_target_percentages` can
raise (they are caught by the per-fragment handler of the caller). -/
def formatPlaceholderFragment (origText : String) (params : Params) :
    Except Unit OFragment :=
  (getTargetPercentagesF params "expand").map (fun ts =>
    ⟨ts.map (fun t =>
      formatPlaceholderLength t origText (params.versions.getD
        DEFAULT_VERSIONS))⟩)

/-- Python truthiness of a length dict: `{}` (no keys) is falsy. -/
def lengthFalsy (l : RLength) : Bool :=
  l.target_percentage = none ∧ l.versions = none

/-- The version loop body of `ResponseFormatter.format_response`: a version
without `text` (or a falsy version) is replaced by the original text with a
`version_missing` warning and still processed; `final_tokens` /
`final_percentage` are recomputed from the text; a realized percentage
deviating from the target by more than the `0.2` tolerance adds a
`target_deviation` warning but the version is still appended.  `none` (no
version appended) models the `ZeroDivisionError` caught as `version_error`
when the original token count — or, in the deviation quotient, the target —
is zero. -/
def processVersion (origText : String) (origTok : Nat) (target : Int)
    (i j k : Nat) (v : RVersion) : Option OVersion × List FWarn :=
  let (txt, w0) :=
    match v.text with
    | none => (origText, [FWarn.version_missing i j k])
    | some t => (t, ([] : List FWarn))
  let finalTokens := count_tokens txt
  if origTok = 0 then (none, w0 ++ [FWarn.version_error i j k])
  else
    let finalPercentage := pyRound1 (finalTokens * 100) origTok
    if target = 0 then (none, w0 ++ [FWarn.version_error i j k])
    else
      let deviation : ℚ := |finalPercentage - (target : ℚ)| / (target : ℚ)
      let w1 := if deviation > 1 / 5 then [FWarn.target_deviation i j k]
                else ([] : List FWarn)
      (some ⟨txt, finalTokens, finalPercentage⟩, w0 ++ w1)

/-- The length loop body of `ResponseFormatter.format_response`: a length
entry that is absent (index out of range) or falsy becomes a placeholder
with a `length_missing` warning; otherwise its versions are processed one by
one (`length_config.get('versions', [])` — a missing `versions` key silently
yields zero versions, with no warning and no padding or truncation).
`versionResults` is the version loop over
`enumerate(length_config.get('versions', []))`. -/
def versionResults (origText : String) (origTok : Nat) (target : Int)
    (i j : Nat) (vs : List RVersion) : List (Option OVersion × List FWarn) :=
  (List.range vs.length).map
    (fun k => processVersion origText origTok target i j k (vs.getD k {}))

def processLength (origText : String) (origTok : Nat) (versionsParam : Int)
    (i j : Nat) (target : Int) (lengthOpt : Option RLength) :
    OLength × List FWarn :=
  match lengthOpt with
  | none =>
    (formatPlaceholderLength target origText versionsParam,
     [FWarn.length_missing i j])
  | some l =>
    if lengthFalsy l then
      (formatPlaceholderLength target origText versionsParam,
       [FWarn.length_missing i j])
    else
      ({ target_percentage := target
         target_tokens := pyRoundInt (origTok * target) 100
         versions := (versionResults origText origTok target i j
           (l.versions.getD [])).filterMap Prod.fst },
       ((versionResults origText origTok target i j
           (l.versions.getD [])).map Prod.snd).flatten)

/-- The fragment loop body of `ResponseFormatter.format_response`.  When the
fragments array is too short, the indexing `fragments[i]` raises
`IndexError`, caught by the per-fragment handler: only a `fragment_error`
warning is recorded and no fragment (not even a placeholder) is appended.
`lengthResults` is the length loop over `enumerate(target_percentages)`
(`original_tokens[i]` is recomputed from the fragment's original text). -/
def lengthResults (params : Params) (targets : List Int)
    (origText : String) (i : Nat) (ls : List RLength) :
    List (OLength × List FWarn) :=
  (List.range targets.length).map (fun j =>
    processLength origText (count_tokens origText)
      (params.versions.getD DEFAULT_VERSIONS) i j (targets.getD j 0)
      (if j < ls.length then some (ls.getD j {}) else none))

def formatProcessFragment (params : Params) (targets : List Int)
    (fs : List RFragment) (i : Nat) (origText : String) :
    Option OFragment × List FWarn :=
  if i < fs.length then
    match (fs.getD i {}).lengths with
    | none =>
      match formatPlaceholderFragment origText params with
      | .ok pf => (some pf, [.fragment_missing i])
      | .error _ => (none, [.fragment_missing i, .fragment_error i])
    | some ls =>
      (some ⟨(lengthResults params targets origText i ls).map Prod.fst⟩,
       ((lengthResults params targets origText i ls).map Prod.snd).flatten)
  else (none, [.fragment_error i])

/-- The fragment loop of `format_response` over
`enumerate(content_list)`. -/
def fragmentResults (params : Params) (targets : List Int)
    (contentList : List String) (fs : List RFragment) :
    List (Option OFragment × List FWarn) :=
  (List.range contentList.length).map
    (fun i => formatProcessFragment params targets fs i
      (contentList.getD i ""))

/-- The input normalization at the top of `format_response`: a
single-content response carrying a `lengths` key is rewrapped as a fresh
one-fragment response (dropping every other key). -/
def convertResponse (content : ContentInput) (aiResponse : RResponse) :
    RResponse :=
  if content.isFragments then aiResponse
  else
    match aiResponse.lengths with
    | some ls => { fragments := some [{ lengths := some ls }] }
    | none => aiResponse

/-- `ResponseFormatter.format_response` for the expand/compress operations.
The early-return `rephrase` branch of the source (which passes fragments
through verbatim) is outside the modelled output shape and is mapped to
`.error`; every theorem below instantiates `operation` with `"expand"` or
`"compress"`.  The embedding assumes the response argument is a truthy
(non-empty) dict, which holds for every response produced by
`parse_ai_response`.  `.error` models the top-level `except` returning the
`format_error` envelope. -/
def formatResponse (aiResponse : RResponse) (params : Params)
    (content : ContentInput) (operation : String)
    (validationWarnings : List FWarn) : Except String FormatResult :=
  if operation == "rephrase" then .error "rephrase branch not modelled"
  else
    let isFragments := content.isFragments
    let contentList := content.list
    let resp := convertResponse content aiResponse
    match getTargetPercentagesF params operation with
    | .error _ => .error "format_error"
    | .ok targets =>
      let fs := resp.fragments.getD []
      let results := fragmentResults params targets contentList fs
      let processed := results.filterMap Prod.fst
      let warnings := validationWarnings ++ (results.map Prod.snd).flatten
      .ok
        { typeFragments := isFragments
          fragments := processed
          mode := determineMode params
          operation := operation
          validation :=
            { fragments_expected := contentList.length
              fragments_received := processed.length
              fragments_passed := processed.length == contentList.length
              lengths_expected := targets
              lengths_passed :=
                if processed ≠ [] then
                  processed.all (fun f => f.lengths.length == targets.length)
                else false }
          step_size := params.steps_percentage
          start_percentage := params.start_percentage
          warnings := if warnings = [] then none else some warnings }

/-! ## Request Validator — `app/utils/request_validator.py` -/

/-- A `ValidationError` (code and field; the human-readable message is an
f-string over the same data and is not modelled). -/
structure VError where
  code : String
  field : String
  deriving Repr, DecidableEq

/-- The enumerations the validator checks against.  The source imports
`VALID_STYLES` / `VALID_TONES` / `VALID_ASPECTS` from
`app.config.endpoint_params`, which does not define them; the values below
are the definitions in `app.config.ai_settings` and
`app.config.text_transform` (identical in both). -/
def VALID_STYLES : List String := ["elaborate", "explain", "example", "detail"]

def VALID_TONES : List String := ["academic", "conversational", "technical"]

def VALID_ASPECTS : List String :=
  ["context", "examples", "implications", "technical_details",
   "counterarguments"]

def VALID_FRAGMENT_STYLES : List String := ["bullet", "narrative", "outline"]

/-- Python truthiness of an integer parameter: `0` behaves like an absent
value in `if target and ...` guards. -/
def truthyInt (o : Option Int) : Option Int :=
  match o with
  | some t => if t = 0 then none else some t
  | none => none

/-- `RequestValidator._is_expansion`: like `_should_expand` but with `False`
(not the operation name) as the final fallback. -/
def validatorIsExpansion (params : Params) : Bool :=
  match truthyInt params.target_percentage with
  | some t => t > 100
  | none =>
    match params.target_percentages with
    | some ts => ts.any (fun t => t > 100)
    | none => false

/-- `RequestValidator._validate_basic_params` (the `isinstance(versions,
int)` branch is unrepresentable here: `versions` is typed `Option Int`). -/
def validateBasicParams (params : Params) : Option VError :=
  if params.target_percentage.isSome && params.target_percentages.isSome then
    some ⟨"invalid_params", "target_percentage"⟩
  else
    match params.versions with
    | some v =>
      if v < 1 || v > MAX_VERSIONS then some ⟨"invalid_versions", "versions"⟩
      else none
    | none => none

/-- `RequestValidator._validate_style_params`. -/
def validateStyleParams (params : Params) : Option VError :=
  if params.style.any (fun s => !(VALID_STYLES.contains s)) then
    some ⟨"invalid_style", "style"⟩
  else if params.tone.any (fun s => !(VALID_TONES.contains s)) then
    some ⟨"invalid_tone", "tone"⟩
  else if params.aspects.any
    (fun as => as.any (fun a => !(VALID_ASPECTS.contains a))) then
    some ⟨"invalid_aspects", "aspects"⟩
  else none

/-- `RequestValidator._validate_length_params`.  The step check is an
`is not None` test (so a step of `0` is range-checked), while every
`target` / `start` guard is a truthiness test (`if target and ...`). -/
def validateLengthParams (params : Params) (isExpansion : Bool) :
    Option VError :=
  let stepErr : Option VError :=
    match params.steps_percentage with
    | some step =>
      if step < MIN_STEP_SIZE then some ⟨"invalid_step", "steps_percentage"⟩
      else if step > MAX_STEP_SIZE then
        some ⟨"invalid_step", "steps_percentage"⟩
      else none
    | none => none
  match stepErr with
  | some e => some e
  | none =>
    if isExpansion then
      match truthyInt params.target_percentage with
      | some t =>
        if t ≤ DEFAULT_PERCENTAGE then
          some ⟨"invalid_expansion", "target_percentage"⟩
        else if t > MAX_LENGTH_EXPANSION then
          some ⟨"invalid_expansion", "target_percentage"⟩
        else if t < MIN_LENGTH_EXPANSION then
          some ⟨"invalid_expansion", "target_percentage"⟩
        else
          match truthyInt params.start_percentage with
          | some s =>
            if s ≥ t then some ⟨"invalid_range", "start_percentage"⟩ else none
          | none => none
      | none => none
    else
      match truthyInt params.target_percentage with
      | some t =>
        if t ≥ DEFAULT_PERCENTAGE then
          some ⟨"invalid_compression", "target_percentage"⟩
        else if t > MAX_LENGTH_COMPRESSION then
          some ⟨"invalid_compression", "target_percentage"⟩
        else if t < MIN_LENGTH_COMPRESSION then
          some ⟨"invalid_compression", "target_percentage"⟩
        else
          match truthyInt params.start_percentage with
          | some s =>
            if s ≤ t then some ⟨"invalid_range", "start_percentage"⟩ else none
          | none => none
      | none => none

/-- `RequestValidator._validate_fragment_params`. -/
def validateFragmentParams (params : Params) : Option VError :=
  if params.fragment_style.any
    (fun s => !(VALID_FRAGMENT_STYLES.contains s)) then
    some ⟨"invalid_fragment_style", "fragment_style"⟩
  else none

/-- `RequestValidator.validate_request`: first error wins; unknown
parameter names become non-fatal warnings (the source returns `None`
instead of an empty warning list — modelled as `[]`). -/
def validateRequest (content : ContentInput) (params : Params) :
    Option VError × List String :=
  let warnings := params.extra_keys
  let isExp := validatorIsExpansion params
  match validateBasicParams params with
  | some e => (some e, warnings)
  | none =>
    match validateStyleParams params with
    | some e => (some e, warnings)
    | none =>
      match validateLengthParams params isExp with
      | some e => (some e, warnings)
      | none =>
        match content with
        | .frags _ =>
          match validateFragmentParams params with
          | some e => (some e, warnings)
          | none => (none, warnings)
        | .single _ => (none, warnings)

/-! ## Prompt Assembler numeric core — `format_version_details` in
`app/utils/text_transform.py` -/

/-- One length entry of the JSON skeleton embedded in the prompt: the
requested target percentage, the requested token count
`round(tokens * target_percentage / 100)`, and how many version stubs are
enumerated. -/
structure PromptLength where
  target_percentage : Int
  target_tokens : Int
  versions_count : Nat
  deriving Repr, DecidableEq

/-- `create_length_structure` inside `format_version_details` (the literal
stub texts of the version placeholders are not modelled; the enumerated
count is). -/
def createLengthStructure (tokens : Nat) (configs : List LengthConfig) :
    List PromptLength :=
  configs.map (fun c =>
    { target_percentage := c.target_percentage
      target_tokens := pyRoundInt (tokens * c.target_percentage) 100
      versions_count := c.versions_per_length.toNat })

/-! ## Theorems -/

/-- C1: for every single-target request (`target_percentage` given,
`steps_percentage` and `target_percentages` absent) the Planner
(`_calculate_target_percentages`) returns exactly one length configuration
whose `target_percentage` is the requested value and whose
`versions_per_length` is `min(versions, MAX_VERSIONS)` with
`MAX_VERSIONS = 5`, `versions` defaulting to `DEFAULT_VERSIONS = 1` when
unset. -/
theorem c1_single_target_plan (isExp : Bool) (params : Params) (t : Int)
    (ht : params.target_percentage = some t)
    (hts : params.target_percentages = none)
    (hsp : params.steps_percentage = none) :
    calculateTargetPercentages isExp params =
      .ok [⟨t, min (params.versions.getD DEFAULT_VERSIONS) MAX_VERSIONS⟩] := by
  simp [calculateTargetPercentages, hts, hsp, ht]

/-- Witness for C1 at `target_percentage = 40`, `versions = 3`:
the plan is the single entry (40, 3). -/
theorem c1_single_target_plan_witness :
    ({ target_percentage := some 40, versions := some 3 } :
      Params).target_percentage = some 40 ∧
    calculateTargetPercentages false
      { target_percentage := some 40, versions := some 3 } = .ok [⟨40, 3⟩] := by
  refine ⟨rfl, ?_⟩
  have h := c1_single_target_plan false
    { target_percentage := some 40, versions := some 3 } 40 rfl rfl rfl
  simpa [DEFAULT_VERSIONS, MAX_VERSIONS] using h

lemma validatorIsExpansion_target100 (params : Params)
    (h : params.target_percentage = some 100) :
    validatorIsExpansion params = false := by
  simp [validatorIsExpansion, truthyInt, h]

lemma validateLength_target100 (params : Params)
    (h : params.target_percentage = some 100) :
    (validateLengthParams params false).isSome := by
  unfold validateLengthParams
  cases hsp : params.steps_percentage with
  | none => simp [h, truthyInt, DEFAULT_PERCENTAGE]
  | some step =>
    by_cases h1 : step < MIN_STEP_SIZE
    · simp [h1]
    · by_cases h2 : step > MAX_STEP_SIZE
      · simp [h1, h2]
      · simp [h1, h2, h, truthyInt, DEFAULT_PERCENTAGE]

/-- C9: every request with `target_percentage` exactly 100 is rejected by
the Request Validator (`_is_expansion` classifies it as compression, and
the compression branch rejects any target ≥ 100 — so the rejection happens
whichever operation was requested). -/
theorem c9_target100_rejected (content : ContentInput) (params : Params)
    (h : params.target_percentage = some 100) :
    (validateRequest content params).1.isSome := by
  unfold validateRequest
  rw [validatorIsExpansion_target100 params h]
  cases hb : validateBasicParams params with
  | some e => simp
  | none =>
    cases hs : validateStyleParams params with
    | some e => simp
    | none =>
      have hl := validateLength_target100 params h
      cases hl2 : validateLengthParams params false with
      | some e => simp [hl2]
      | none => rw [hl2] at hl; simp at hl

/-- Witness for C9: the concrete request `target_percentage = 100` on a
single text is rejected. -/
theorem c9_target100_rejected_witness :
    (validateRequest (.single "hi there")
      { target_percentage := some 100 }).1.isSome :=
  c9_target100_rejected (.single "hi there") { target_percentage := some 100 }
    rfl

def paramsStepsOnly : Params := { steps_percentage := some 20 }

/-- C10: a request with `steps_percentage` set and `target_percentage`
absent passes `validate_request` (every length check is guarded by the
target's presence), yet `_calculate_target_percentages` reads
`params['target_percentage']` unconditionally in the steps branch and
raises `KeyError` — an uncaught internal error instead of a 400. -/
theorem c10_validator_planner_gap :
    (validateRequest (.single "hello world") paramsStepsOnly).1 = none ∧
    calculateTargetPercentages (shouldExpand "expand" paramsStepsOnly)
      paramsStepsOnly = .error "KeyError: target_percentage" := by
  exact ⟨rfl, rfl⟩

def c8Params : Params := { target_percentage := some 50 }

/-- C8 counterexample: on the 9-word sentence with `target_percentage = 50`
the Prompt Assembler requests `target_tokens = 4`, not 5 — Python's `round`
is round-half-to-even, so `round(9 * 50 / 100) = round(4.5) = 4`, refuting
the claimed value `5`. -/
theorem c8_counterexample :
    count_tokens "The quick brown fox jumps over the lazy dog" = 9 ∧
    calculateTargetPercentages (shouldExpand "compress" c8Params) c8Params =
      .ok [⟨50, 1⟩] ∧
    createLengthStructure 9 [⟨50, 1⟩] =
      [{ target_percentage := 50, target_tokens := 4, versions_count := 1 }] ∧
    (4 : Int) ≠ 5 := by
  exact ⟨by decide, rfl, rfl, by decide⟩

/-- C8 amended: the Planner yields the single target (50, 1 version); the
Token Estimator computes 9 tokens; the Prompt Assembler requests
`target_tokens = round(9 * 50 / 100) = 4` (round half to even); and no
lower bound of 1 is enforced — a 1-token input at 10% requests 0 tokens. -/
theorem c8_amended_target_tokens :
    calculateTargetPercentages (shouldExpand "compress" c8Params) c8Params =
      .ok [⟨50, 1⟩] ∧
    count_tokens "The quick brown fox jumps over the lazy dog" = 9 ∧
    createLengthStructure 9 [⟨50, 1⟩] =
      [{ target_percentage := 50, target_tokens := 4, versions_count := 1 }] ∧
    createLengthStructure 1 [⟨10, 1⟩] =
      [{ target_percentage := 10, target_tokens := 0, versions_count := 1 }] := by
  exact ⟨rfl, by decide, rfl, rfl⟩

def c4Params : Params :=
  { target_percentage := some 115, start_percentage := some 100,
    steps_percentage := some 10 }

/-- C4 counterexample: the validator accepts `start=100, step=10,
target=115` as an expansion request, and the Planner then produces the
percentages `[100, 110, 120]` — the `100%` stop is not excluded and the
target endpoint `115` is not included (the walk overshoots it to `120`),
refuting both the "excluding any stop equal to 100" and the "including the
target endpoint" parts of the claim. -/
theorem c4_counterexample :
    (validateRequest (.single "sample text") c4Params).1 = none ∧
    shouldExpand "expand" c4Params = true ∧
    calculateTargetPercentages true c4Params =
      .ok [⟨100, 1⟩, ⟨110, 1⟩, ⟨120, 1⟩] ∧
    (100 : Int) ∈ ((calculateTargetPercentages true c4Params).toOption.getD
      []).map LengthConfig.target_percentage ∧
    (115 : Int) ∉ ((calculateTargetPercentages true c4Params).toOption.getD
      []).map LengthConfig.target_percentage := by
  exact ⟨rfl, rfl, rfl, by decide, by decide⟩

lemma pyRangeUpGo_mem_lt {stop step : Int} :
    ∀ {fuel : Nat} {start p : Int}, p ∈ pyRangeUpGo stop step fuel start →
      p < stop := by
  intro fuel
  induction fuel with
  | zero => intro start p h; simp [pyRangeUpGo] at h
  | succ n ih =>
    intro start p h
    unfold pyRangeUpGo at h
    by_cases hs : start < stop
    · simp only [if_pos hs, List.mem_cons] at h
      rcases h with h | h
      · omega
      · exact ih h
    · simp [if_neg hs] at h

lemma pyRangeUpGo_self_mem {stop step : Int} {fuel : Nat} (hf : 0 < fuel)
    {start : Int} (h : start < stop) :
    start ∈ pyRangeUpGo stop step fuel start := by
  cases fuel with
  | zero => omega
  | succ n => simp [pyRangeUpGo, h]

lemma pyRangeUpGo_dvd_mem {stop step : Int} (hstep : 0 < step) :
    ∀ (fuel : Nat) (start t : Int), step ∣ (t - start) → start ≤ t →
      t < stop → (stop - start).toNat ≤ fuel →
      t ∈ pyRangeUpGo stop step fuel start := by
  intro fuel
  induction fuel with
  | zero => intro start t _ h1 h2 hf; omega
  | succ n ih =>
    intro start t hd h1 h2 hf
    have hss : start < stop := by omega
    unfold pyRangeUpGo
    simp only [if_pos hss, List.mem_cons]
    by_cases he : t = start
    · exact Or.inl he
    · right
      have h3 : step ≤ t - start := Int.le_of_dvd (by omega) hd
      refine ih (start + step) t ?_ (by omega) h2 (by omega)
      have hd2 : step ∣ (t - start) - step := hd.sub dvd_rfl
      have : t - (start + step) = (t - start) - step := by ring
      rw [this]; exact hd2

lemma pyRange_mem_lt {start stop step p : Int} (hstep : 0 < step)
    (h : p ∈ pyRange start stop step) : p < stop := by
  rw [pyRange, if_pos hstep] at h
  exact pyRangeUpGo_mem_lt h

lemma pyRange_self_mem {start stop step : Int} (hstep : 0 < step)
    (h : start < stop) : start ∈ pyRange start stop step := by
  rw [pyRange, if_pos hstep, pyRangeUp]
  exact pyRangeUpGo_self_mem (by omega) h

lemma pyRange_dvd_mem {start stop step t : Int} (hstep : 0 < step)
    (hd : step ∣ (t - start)) (h1 : start ≤ t) (h2 : t < stop) :
    t ∈ pyRange start stop step := by
  rw [pyRange, if_pos hstep, pyRangeUp]
  exact pyRangeUpGo_dvd_mem hstep _ start t hd h1 h2 (by omega)

lemma pyRangeDownGo_mem_gt {stop step : Int} :
    ∀ {fuel : Nat} {start p : Int}, p ∈ pyRangeDownGo stop step fuel start →
      stop < p := by
  intro fuel
  induction fuel with
  | zero => intro start p h; simp [pyRangeDownGo] at h
  | succ n ih =>
    intro start p h
    unfold pyRangeDownGo at h
    by_cases hs : stop < start
    · simp only [if_pos hs, List.mem_cons] at h
      rcases h with h | h
      · omega
      · exact ih h
    · simp [if_neg hs] at h

lemma pyRangeDownGo_self_mem {stop step : Int} {fuel : Nat} (hf : 0 < fuel)
    {start : Int} (h : stop < start) :
    start ∈ pyRangeDownGo stop step fuel start := by
  cases fuel with
  | zero => omega
  | succ n => simp [pyRangeDownGo, h]

lemma pyRangeDownGo_dvd_mem {stop step : Int} (hstep : step < 0) :
    ∀ (fuel : Nat) (start t : Int), step ∣ (t - start) → t ≤ start →
      stop < t → (start - stop).toNat ≤ fuel →
      t ∈ pyRangeDownGo stop step fuel start := by
  intro fuel
  induction fuel with
  | zero => intro start t _ h1 h2 hf; omega
  | succ n ih =>
    intro start t hd h1 h2 hf
    have hss : stop < start := by omega
    unfold pyRangeDownGo
    simp only [if_pos hss, List.mem_cons]
    by_cases he : t = start
    · exact Or.inl he
    · right
      have h4 : step ∣ (start - t) := by
        rw [show start - t = -(t - start) by ring]
        exact hd.neg_right
      have h6 : -step ≤ start - t := Int.le_of_dvd (by omega) (neg_dvd.mpr h4)
      refine ih (start + step) t ?_ (by omega) h2 (by omega)
      have hd2 : step ∣ (t - start) - step := hd.sub dvd_rfl
      have : t - (start + step) = (t - start) - step := by ring
      rw [this]; exact hd2

lemma pyRangeDown_mem_gt {start stop step p : Int} (hstep : step < 0)
    (h : p ∈ pyRange start stop step) : stop < p := by
  rw [pyRange, if_neg (by omega), if_pos hstep] at h
  exact pyRangeDownGo_mem_gt h

lemma pyRangeDown_self_mem {start stop step : Int} (hstep : step < 0)
    (h : stop < start) : start ∈ pyRange start stop step := by
  rw [pyRange, if_neg (by omega), if_pos hstep, pyRangeDown]
  exact pyRangeDownGo_self_mem (by omega) h

lemma pyRangeDown_dvd_mem {start stop step t : Int} (hstep : step < 0)
    (hd : step ∣ (t - start)) (h1 : t ≤ start) (h2 : stop < t) :
    t ∈ pyRange start stop step := by
  rw [pyRange, if_neg (by omega), if_pos hstep, pyRangeDown]
  exact pyRangeDownGo_dvd_mem hstep _ start t hd h1 h2 (by omega)

/-- C4 amended: for a step-driven request (`steps_percentage` given,
`target_percentages` absent, `target_percentage` given) the Planner clamps
the step to at least `MIN_STEP_SIZE` and derives the default start as
`min(100 + step, target)` for expansion (`max(100 - step, target)` for
compression) rather than the unclamped `100 ± step`; the produced
percentages are exactly Python `range(start, target + step, step)` (resp.
`range(start, target - step, -step)`): the start is included whenever
`start ≤ target` (resp. `target ≤ start`), the target endpoint is included
only when the step divides the distance to the start — otherwise the walk
overshoots the target, staying below `target + step` (resp. above
`target - step`) — no stop equal to 100 is filtered out, and every step
carries `versions_per_length = min(versions, MAX_VERSIONS)`. -/
theorem c4_amended_steps_branch (params : Params)
    (sp target step start vpl : Int)
    (hsp : params.steps_percentage = some sp)
    (htp : params.target_percentages = none)
    (ht : params.target_percentage = some target)
    (hstep : step = max sp MIN_STEP_SIZE)
    (hvpl : vpl = min (params.versions.getD DEFAULT_VERSIONS) MAX_VERSIONS)
    (hstart : start = params.start_percentage.getD
      (min (DEFAULT_PERCENTAGE + step) target)) :
    (calculateTargetPercentages true params =
        .ok ((pyRange start (target + step) step).map (fun p => ⟨p, vpl⟩)) ∧
      (∀ p ∈ pyRange start (target + step) step, p < target + step) ∧
      (start ≤ target → start ∈ pyRange start (target + step) step) ∧
      (step ∣ (target - start) → start ≤ target →
        target ∈ pyRange start (target + step) step)) ∧
    (∀ startC : Int, startC = params.start_percentage.getD
        (max (DEFAULT_PERCENTAGE - step) target) →
      calculateTargetPercentages false params =
        .ok ((pyRange startC (target - step) (-step)).map
          (fun p => ⟨p, vpl⟩)) ∧
      (∀ p ∈ pyRange startC (target - step) (-step), target - step < p) ∧
      (target ≤ startC → startC ∈ pyRange startC (target - step) (-step)) ∧
      (step ∣ (startC - target) → target ≤ startC →
        target ∈ pyRange startC (target - step) (-step))) := by
  have hpos : 0 < step := by
    have := le_max_right sp MIN_STEP_SIZE
    rw [← hstep] at this
    simp only [MIN_STEP_SIZE] at this
    omega
  constructor
  · refine ⟨?_, ?_, ?_, ?_⟩
    · simp [calculateTargetPercentages, htp, hsp, ht, ← hstep, ← hvpl,
        ← hstart]
    · intro p hp; exact pyRange_mem_lt hpos hp
    · intro hle; exact pyRange_self_mem hpos (by omega)
    · intro hd hle; exact pyRange_dvd_mem hpos hd hle (by omega)
  · intro startC hstartC
    refine ⟨?_, ?_, ?_, ?_⟩
    · simp [calculateTargetPercentages, htp, hsp, ht, ← hstep, ← hvpl,
        ← hstartC]
    · intro p hp; exact pyRangeDown_mem_gt (by omega) hp
    · intro hle; exact pyRangeDown_self_mem (by omega) (by omega)
    · intro hd hle
      refine pyRangeDown_dvd_mem (t := target) (by omega) ?_ hle (by omega)
      have h4 : step ∣ (target - startC) := by
        rw [show target - startC = -(startC - target) by ring]
        exact hd.neg_right
      exact neg_dvd.mpr h4

/-- Witness for the amended C4 at `target = 150`, `step = 25` (expansion, no
explicit start): the plan is `range(125, 175, 25) = [125, 150]`, the start
125 and the divisible target 150 are both included. -/
theorem c4_amended_steps_branch_witness :
    calculateTargetPercentages true
      { target_percentage := some 150, steps_percentage := some 25 } =
      .ok ((pyRange 125 175 25).map (fun p => ⟨p, 1⟩)) ∧
    (125 : Int) ∈ pyRange 125 175 25 ∧
    (150 : Int) ∈ pyRange 125 175 25 := by
  have h := c4_amended_steps_branch
    { target_percentage := some 150, steps_percentage := some 25 }
    25 150 25 125 1 rfl rfl rfl (by decide) (by decide) (by decide)
  exact ⟨h.1.1, h.1.2.2.1 (by decide), h.1.2.2.2 (by decide) (by decide)⟩

lemma processFragmentI_of_ge (cs : List String) (vp : Int)
    (targets : List LengthConfig) (fs : List RFragment) (i : Nat)
    (h : ¬ i < fs.length) :
    processFragmentI cs vp targets fs i =
      (createPlaceholderFragment (cs.getD i "") targets vp,
       [.fragmentMissing i]) := by
  unfold processFragmentI
  rw [if_neg h]

lemma createPlaceholderFragment_text (origText : String)
    (targets : List LengthConfig) (vp : Int) :
    ∀ l ∈ (createPlaceholderFragment origText targets vp).lengths.getD [],
      ∀ v ∈ l.versions.getD [], v.text = some origText := by
  intro l hl v hv
  simp only [createPlaceholderFragment, Option.getD_some, List.mem_map]
    at hl
  obtain ⟨c, _, rfl⟩ := hl
  simp only [Option.getD_some, placeholderVersions] at hv
  rw [List.eq_of_mem_replicate hv]

lemma getD_range_map {α : Type} {n k : Nat} {f : Nat → α} {d : α}
    (h : k < n) : ((List.range n).map f).getD k d = f k := by
  rw [List.getD_eq_getElem _ _ (by simpa using h)]
  simp

def c3Params : Params := { target_percentage := some 50 }

/-- C3 counterexample: for single-string input, a response whose `lengths`
array falls short of the plan makes `parse_ai_response` raise a
`ValueError`, re-raised as a 400 `APIRequestError` — the request aborts
instead of recovering with placeholders. -/
theorem c3_counterexample :
    transformParse "compress" (.single "a b c d") c3Params
      { lengths := some [] } =
      .error "Expected at least as many lengths as planned" := rfl

/-- C3 amended: the never-abort recovery holds for fragment (list) input
only — there reconciliation always returns a full-size best-effort result
and records a warning whenever the response supplies fewer fragments than
the plan expects; for single-string input, count shortfalls abort the
request (see the counterexample). -/
theorem c3_amended_fragment_never_aborts (op : String) (cs : List String)
    (params : Params) (resp : RResponse) (isExp : Bool)
    (targets : List LengthConfig)
    (hinit : initTransform op params = .ok (isExp, targets)) :
    ∃ res warns,
      transformParse op (.frags cs) params resp = .ok (res, warns) ∧
      (res.fragments.getD []).length = cs.length ∧
      ((resp.fragments.getD []).length < cs.length → warns ≠ []) := by
  refine ⟨(parseFragments cs (params.versions.getD DEFAULT_VERSIONS)
      targets resp).1,
    (parseFragments cs (params.versions.getD DEFAULT_VERSIONS)
      targets resp).2, ?_, ?_, ?_⟩
  · simp [transformParse, hinit]
  · unfold parseFragments
    cases resp.fragments <;> simp
  · intro hlt
    unfold parseFragments
    cases hrf : resp.fragments with
    | none => simp
    | some fs =>
      rw [hrf] at hlt
      simp only [Option.getD_some] at hlt ⊢
      intro hcontra
      have hmem : PWarn.fragmentMissing fs.length ∈
          ((((List.range cs.length).map (processFragmentI cs
            (params.versions.getD DEFAULT_VERSIONS) targets fs)).map
              Prod.snd).flatten) := by
        rw [List.mem_flatten]
        refine ⟨[PWarn.fragmentMissing fs.length], ?_, by simp⟩
        rw [List.mem_map]
        refine ⟨processFragmentI cs (params.versions.getD DEFAULT_VERSIONS)
          targets fs fs.length, ?_, ?_⟩
        · rw [List.mem_map]
          exact ⟨fs.length, by simpa using hlt, rfl⟩
        · rw [processFragmentI_of_ge _ _ _ _ _ (by omega)]
      rw [List.append_eq_nil] at hcontra
      rw [hcontra.2] at hmem
      simp at hmem

/-- Witness for the amended C3: a fragment request whose response has no
fragments at all still reconciles to an `ok` result. -/
theorem c3_amended_fragment_never_aborts_witness :
    (transformParse "compress" (.frags ["hello there friend"]) c3Params
      { fragments := some [] }).toOption.isSome = true := by
  obtain ⟨res, warns, heq, -, -⟩ := c3_amended_fragment_never_aborts
    "compress" ["hello there friend"] c3Params { fragments := some [] }
    false [⟨50, 1⟩] rfl
  rw [heq]
  rfl

/-- C6: for a fragmented request whose response carries one fragment fewer
than `len(content)`, reconciliation replaces the missing (last) fragment by
a placeholder whose every version at every planned length is the original
fragment text verbatim, and records a warning carrying the missing
fragment's index. -/
theorem c6_missing_fragment_placeholder (cs : List String)
    (versionsParam : Int) (targets : List LengthConfig) (resp : RResponse)
    (fs : List RFragment) (n : Nat)
    (hn : cs.length = n + 1)
    (hfs : resp.fragments = some fs)
    (hlen : fs.length = n) :
    ((parseFragments cs versionsParam targets resp).1.fragments.getD
        []).getD n {} =
      createPlaceholderFragment (cs.getD n "") targets versionsParam ∧
    (∀ l ∈ (createPlaceholderFragment (cs.getD n "") targets
        versionsParam).lengths.getD [],
      ∀ v ∈ l.versions.getD [], v.text = some (cs.getD n "")) ∧
    PWarn.fragmentMissing n ∈
      (parseFragments cs versionsParam targets resp).2 := by
  refine ⟨?_, createPlaceholderFragment_text _ _ _, ?_⟩
  · unfold parseFragments
    rw [hfs]
    simp only [Option.getD_some]
    rw [List.map_map, getD_range_map (by omega)]
    have := processFragmentI_of_ge cs versionsParam targets fs n
      (by omega)
    simp [this]
  · unfold parseFragments
    rw [hfs]
    simp only [Option.getD_some]
    refine List.mem_append_right _ ?_
    rw [List.mem_flatten]
    refine ⟨[PWarn.fragmentMissing n], ?_, by simp⟩
    rw [List.map_map, List.mem_map]
    refine ⟨n, by simp; omega, ?_⟩
    simp [processFragmentI_of_ge cs versionsParam targets fs n (by omega)]

/-- Witness for C6: one expected fragment, empty response fragments array —
the result is the placeholder and the index-0 warning is present. -/
theorem c6_missing_fragment_placeholder_witness :
    ((parseFragments ["solo text"] 1 [⟨50, 1⟩]
        { fragments := some [] }).1.fragments.getD []).getD 0 {} =
      createPlaceholderFragment "solo text" [⟨50, 1⟩] 1 ∧
    PWarn.fragmentMissing 0 ∈
      (parseFragments ["solo text"] 1 [⟨50, 1⟩]
        { fragments := some [] }).2 := by
  have h := c6_missing_fragment_placeholder ["solo text"] 1 [⟨50, 1⟩]
    { fragments := some [] } [] 0 rfl rfl rfl
  exact ⟨h.1, h.2.2⟩

def c2Params : Params := {}

def c2Resp : RResponse :=
  ⟨some [⟨some [⟨none, some [⟨some "v one", none, none⟩,
    ⟨some "v two", none, none⟩]⟩]⟩], none⟩

/-- C2 counterexample: a fragment request with an empty parameter set plans
(150%, 1 version); the response supplies two versions for the single
planned length and reconciliation keeps both — surplus versions are not
dropped in the fragment path, so the "exactly versions_per_length versions"
invariant fails (2 ≠ 1). -/
theorem c2_counterexample :
    calculateTargetPercentages (shouldExpand "expand" c2Params) c2Params =
      .ok [⟨150, 1⟩] ∧
    ((((((transformParse "expand" (.frags ["alpha beta"]) c2Params
        c2Resp).toOption.getD ({}, [])).1.fragments.getD []).getD 0
      {}).lengths.getD []).getD 0 {}).versions.getD [] =
      [{ text := some "v one" }, { text := some "v two" }] ∧
    ([{ text := some "v one" }, { text := some "v two" }] :
      List RVersion).length ≠ 1 := by
  exact ⟨rfl, by decide, by decide⟩

lemma padLengthVersions_ge (origText : String) (vp : Int) (i j : Nat)
    (l : RLength) (vs : List RVersion) (hvs : l.versions = some vs) :
    vp.toNat ≤
      ((padLengthVersions origText vp i j l).1.versions.getD []).length := by
  unfold padLengthVersions
  rw [hvs]
  by_cases hlt : (vs.length : Int) < vp
  · simp only [if_pos hlt, Option.getD_some, List.length_append,
      List.length_replicate]
    omega
  · simp only [if_neg hlt, hvs, Option.getD_some]
    omega

lemma processFragmentI_versions_ge (cs : List String) (vp : Int)
    (targets : List LengthConfig) (fs : List RFragment) (i : Nat)
    (hv : ∀ f ∈ fs, ∀ ls, f.lengths = some ls → ∀ l ∈ ls,
      l.versions ≠ none) :
    ∀ ls', (processFragmentI cs vp targets fs i).1.lengths = some ls' →
      ∀ l' ∈ ls', vp.toNat ≤ (l'.versions.getD []).length := by
  intro ls' hls' l' hl'
  unfold processFragmentI at hls'
  by_cases hi : i < fs.length
  · rw [if_pos hi] at hls'
    cases hfl : (fs.getD i {}).lengths with
    | none =>
      simp only [hfl] at hls'
      simp only [createPlaceholderFragment, Option.some.injEq] at hls'
      rw [← hls'] at hl'
      rw [List.mem_map] at hl'
      obtain ⟨c, -, rfl⟩ := hl'
      simp [placeholderVersions]
    | some ls =>
      simp only [hfl] at hls'
      simp only [Option.some.injEq] at hls'
      rw [← hls', List.map_map, List.mem_map] at hl'
      obtain ⟨j, hj, rfl⟩ := hl'
      rw [List.mem_range] at hj
      set ls2 :=
        if ls.length < targets.length then
          ls ++ (List.range (targets.length - ls.length)).map (fun k =>
            createPlaceholderLength
              ((targets.getD (ls.length + k) ⟨0, 0⟩).target_percentage)
              (cs.getD i "") vp)
        else ls with hls2
      have hne : (ls2.getD j {}).versions ≠ none := by
        by_cases hcond : ls.length < targets.length
        · rw [hls2, if_pos hcond]
          by_cases hjl : j < ls.length
          · rw [List.getD_append _ _ _ _ hjl]
            refine hv (fs.getD i {}) ?_ ls hfl (ls.getD j {}) ?_
            · rw [List.getD_eq_getElem _ _ hi]
              exact List.getElem_mem hi
            · rw [List.getD_eq_getElem _ _ hjl]
              exact List.getElem_mem hjl
          · have hj2 : j < ls2.length := by
              rw [hls2, if_pos hcond] at hj ⊢
              simpa using hj
            rw [List.getD_append_right _ _ _ _ (by omega)]
            have hjb : j - ls.length < targets.length - ls.length := by
              rw [hls2, if_pos hcond] at hj
              simp at hj
              omega
            rw [getD_range_map hjb]
            simp [createPlaceholderLength]
        · rw [hls2, if_neg hcond]
          have hjl : j < ls.length := by
            rw [hls2, if_neg hcond] at hj
            exact hj
          refine hv (fs.getD i {}) ?_ ls hfl (ls.getD j {}) ?_
          · rw [List.getD_eq_getElem _ _ hi]
            exact List.getElem_mem hi
          · rw [List.getD_eq_getElem _ _ hjl]
            exact List.getElem_mem hjl
      obtain ⟨vs, hvs⟩ := Option.ne_none_iff_exists'.mp hne
      exact padLengthVersions_ge (cs.getD i "") vp i j _ vs hvs
  · rw [if_neg hi] at hls'
    simp only [createPlaceholderFragment, Option.some.injEq] at hls'
    rw [← hls'] at hl'
    rw [List.mem_map] at hl'
    obtain ⟨c, -, rfl⟩ := hl'
    simp [placeholderVersions]

/-- C2 amended: after reconciliation of a fragment request, every length
entry whose supplied form carried a `versions` key holds at least
`versions` (the request parameter, default 1) versions — shortfalls are
padded with the original input text — but surplus versions are kept, not
dropped: a supplied version list that already meets the expectation passes
through untouched.  A length entry *lacking* the `versions` key is instead
given exactly one original-text version, regardless of the expectation
(the source's `continue` skips the padding for it) — the hypothesis `hv`
restricts the first conjunct to responses without such entries, and the
third conjunct proves their exactly-one-version behavior.  (In the
single-text path, by contrast, no padding happens: shortfalls at the
lengths level abort the request and version lists are truncated to
`MAX_VERSIONS`, not to `versions_per_length`.) -/
theorem c2_amended_fragment_version_counts (cs : List String)
    (versionsParam : Int) (targets : List LengthConfig) (resp : RResponse)
    (hv : ∀ f ∈ resp.fragments.getD [], ∀ ls, f.lengths = some ls →
      ∀ l ∈ ls, l.versions ≠ none) :
    (∀ f' ∈ (parseFragments cs versionsParam targets
        resp).1.fragments.getD [],
      ∀ ls', f'.lengths = some ls' → ∀ l' ∈ ls',
        versionsParam.toNat ≤ (l'.versions.getD []).length) ∧
    (∀ (origText : String) (i j : Nat) (l : RLength) (vs : List RVersion),
      l.versions = some vs → ¬((vs.length : Int) < versionsParam) →
      (padLengthVersions origText versionsParam i j l).1 = l) ∧
    (∀ (origText : String) (i j : Nat) (l : RLength),
      l.versions = none →
      (padLengthVersions origText versionsParam i j l).1.versions =
        some [{ text := some origText }] ∧
      ((padLengthVersions origText versionsParam i j
        l).1.versions.getD []).length = 1) := by
  refine ⟨?_, ?_, ?_⟩
  · intro f' hf' ls' hls' l' hl'
    unfold parseFragments at hf'
    cases hrf : resp.fragments with
    | none =>
      rw [hrf] at hf'
      simp only [Option.getD_some, List.map_map, List.mem_map,
        List.mem_range] at hf'
      obtain ⟨i, -, rfl⟩ := hf'
      exact processFragmentI_versions_ge cs versionsParam targets [] i
        (by simp) ls' hls' l' hl'
    | some fs =>
      rw [hrf] at hf'
      simp only [Option.getD_some, List.map_map, List.mem_map,
        List.mem_range] at hf'
      obtain ⟨i, -, rfl⟩ := hf'
      rw [hrf] at hv
      exact processFragmentI_versions_ge cs versionsParam targets fs i
        (by simpa using hv) ls' hls' l' hl'
  · intro origText i j l vs hvs hge
    simp [padLengthVersions, hvs, if_neg hge]
  · intro origText i j l hnone
    constructor <;> simp [padLengthVersions, hnone]

def c2wResp : RResponse :=
  ⟨some [⟨some [⟨none, some [⟨some "only one", none, none⟩]⟩]⟩], none⟩

/-- Witness for the amended C2: plan expects 2 versions, the response
supplies 1; the reconciled length entry holds 2 versions (the shortfall
padded with the original text "a b").  A length entry without a `versions`
key ends with exactly one original-text version instead. -/
theorem c2_amended_fragment_version_counts_witness :
    (2 : Int).toNat ≤ (([⟨some "only one", none, none⟩,
      ⟨some "a b", none, none⟩] : List RVersion)).length ∧
    (padLengthVersions "a b" 2 0 0 ⟨some 50, none⟩).1.versions =
      some [⟨some "a b", none, none⟩] := by
  have hv : ∀ f ∈ c2wResp.fragments.getD [], ∀ ls : List RLength,
      f.lengths = some ls → ∀ l ∈ ls, l.versions ≠ none := by
    intro f hf ls hls l hl
    simp only [c2wResp, Option.getD_some, List.mem_singleton] at hf
    subst hf
    simp only [Option.some.injEq] at hls
    subst hls
    simp only [List.mem_singleton] at hl
    subst hl
    simp
  have h := (c2_amended_fragment_version_counts ["a b"] 2 [⟨50, 2⟩] c2wResp
    hv).1
  have h2 := h
    ⟨some [⟨none, some [⟨some "only one", none, none⟩,
      ⟨some "a b", none, none⟩]⟩]⟩ (by decide)
    [⟨none, some [⟨some "only one", none, none⟩,
      ⟨some "a b", none, none⟩]⟩] rfl
    ⟨none, some [⟨some "only one", none, none⟩,
      ⟨some "a b", none, none⟩]⟩ (by decide)
  have h3 := ((c2_amended_fragment_version_counts ["a b"] 2 [⟨50, 2⟩]
    c2wResp hv).2.2 "a b" 0 0 ⟨some 50, none⟩ rfl).1
  exact ⟨h2, h3⟩

def c5Params : Params := { target_percentage := some 50 }

def c5Resp : RResponse :=
  ⟨none, some [⟨none, some [⟨some "w w w w w w w w w w w", none, none⟩]⟩]⟩

/-- C5 counterexample: single-text path, plan (50%, 1 version) on a 4-token
input (target 2 tokens); the response version has 11 tokens — its realized
percentage 275% deviates from the 50% target far beyond any tolerance — and
`_validate_version` raises, aborting the request with a 400 error instead
of attaching a deviation warning to a normal response. -/
theorem c5_counterexample :
    transformParse "compress" (.single "a b c d") c5Params c5Resp =
      .error "token count differs significantly from target" := rfl

/-- C5 amended: in the ResponseFormatter every reconciled version's
realized percentage is compared against its target; a relative deviation
beyond the fixed 0.2 tolerance yields a `target_deviation` warning while
the version is still kept, and the formatter never turns deviations into a
failure (whenever the target-percentage computation succeeds on a
non-rephrase operation it returns a normal `ok` result).  The parse step,
by contrast, aborts the request when a single-text expand/compress version
deviates by more than 200% of the target token count (see the
counterexample). -/
theorem c5_amended_deviation_warns (origText : String) (origTok : Nat)
    (target : Int) (i j k : Nat) (v : RVersion) (txt : String)
    (hv : v.text = some txt)
    (ho : ¬ origTok = 0) (ht : ¬ target = 0)
    (hdev : |pyRound1 (count_tokens txt * 100) origTok - (target : ℚ)| /
      (target : ℚ) > 1 / 5) :
    processVersion origText origTok target i j k v =
      (some ⟨txt, count_tokens txt,
        pyRound1 (count_tokens txt * 100) origTok⟩,
       [FWarn.target_deviation i j k]) ∧
    (∀ (aiResponse : RResponse) (params : Params) (content : ContentInput)
      (op : String) (vw : List FWarn) (targets : List Int),
      op ≠ "rephrase" → getTargetPercentagesF params op = .ok targets →
      ∃ r, formatResponse aiResponse params content op vw = .ok r) := by
  constructor
  · unfold processVersion
    rw [hv]
    simp only [if_neg ho, if_neg ht, if_pos hdev, List.nil_append]
  · intro aiResponse params content op vw targets hop htargets
    unfold formatResponse
    have hbeq : (op == "rephrase") = false := beq_eq_false_iff_ne.mpr hop
    rw [hbeq]
    simp only [Bool.false_eq_true, if_false]
    rw [htargets]
    exact ⟨_, rfl⟩

/-- Witness for the amended C5: a 6-token version against a 4-token
original at target 50% realizes 150% (deviation 2.0 > 0.2): the version is
kept with a `target_deviation` warning, and the formatter still returns an
`ok` result. -/
theorem c5_amended_deviation_warns_witness :
    processVersion "a b c d" 4 50 0 0 0 ⟨some "x x x x x x", some 3, none⟩ =
      (some ⟨"x x x x x x", 6, 150⟩, [FWarn.target_deviation 0 0 0]) ∧
    ∃ r, formatResponse ⟨none, none⟩ { target_percentage := some 50 }
      (.single "a b c d") "compress" [] = .ok r := by
  have hct : count_tokens "x x x x x x" = 6 := rfl
  have h1500 : pyRoundInt (10 * ((count_tokens "x x x x x x" : Int) * 100))
      ((4 : Nat) : Int) = 1500 := rfl
  have hpr : pyRound1 ((count_tokens "x x x x x x" : Int) * 100)
      ((4 : Nat) : Int) = 150 := by
    unfold pyRound1
    rw [h1500]
    norm_num
  have h := c5_amended_deviation_warns "a b c d" 4 50 0 0 0
    ⟨some "x x x x x x", some 3, none⟩ "x x x x x x" rfl (by decide)
    (by decide) (by rw [hpr]; norm_num)
  refine ⟨?_, h.2 ⟨none, none⟩ { target_percentage := some 50 }
    (.single "a b c d") "compress" [] [50] (by decide) rfl⟩
  rw [h.1, hpr, hct]

/-- Erase every self-reported numeric field of a version, keeping only the
`text` the source actually reads. -/
def stripVersion (v : RVersion) : RVersion := { text := v.text }

def stripLength (l : RLength) : RLength :=
  { l with versions := l.versions.map (List.map stripVersion) }

def stripFragment (f : RFragment) : RFragment :=
  { lengths := f.lengths.map (List.map stripLength) }

def stripResponse (r : RResponse) : RResponse :=
  { fragments := r.fragments.map (List.map stripFragment)
    lengths := r.lengths.map (List.map stripLength) }

lemma processVersion_strip (origText : String) (origTok : Nat)
    (target : Int) (i j k : Nat) (v : RVersion) :
    processVersion origText origTok target i j k (stripVersion v) =
      processVersion origText origTok target i j k v := rfl

lemma getD_map_stripVersion (vs : List RVersion) (k : Nat) :
    (vs.map stripVersion).getD k {} = stripVersion (vs.getD k {}) := by
  by_cases h : k < vs.length
  · rw [List.getD_eq_getElem _ _ (by simpa using h),
      List.getD_eq_getElem _ _ h]
    simp
  · rw [List.getD_eq_default _ _ (by simpa using not_lt.mp h),
      List.getD_eq_default _ _ (not_lt.mp h)]
    rfl

lemma getD_map_stripLength (ls : List RLength) (j : Nat) :
    (ls.map stripLength).getD j {} = stripLength (ls.getD j {}) := by
  by_cases h : j < ls.length
  · rw [List.getD_eq_getElem _ _ (by simpa using h),
      List.getD_eq_getElem _ _ h]
    simp
  · rw [List.getD_eq_default _ _ (by simpa using not_lt.mp h),
      List.getD_eq_default _ _ (not_lt.mp h)]
    rfl

lemma getD_map_stripFragment (fs : List RFragment) (i : Nat) :
    (fs.map stripFragment).getD i {} = stripFragment (fs.getD i {}) := by
  by_cases h : i < fs.length
  · rw [List.getD_eq_getElem _ _ (by simpa using h),
      List.getD_eq_getElem _ _ h]
    simp
  · rw [List.getD_eq_default _ _ (by simpa using not_lt.mp h),
      List.getD_eq_default _ _ (not_lt.mp h)]
    rfl

lemma lengthFalsy_strip (l : RLength) :
    lengthFalsy (stripLength l) = lengthFalsy l := by
  cases hv : l.versions <;> simp [lengthFalsy, stripLength, hv]

lemma stripLength_versions_getD (l : RLength) :
    (stripLength l).versions.getD [] =
      (l.versions.getD []).map stripVersion := by
  cases hv : l.versions <;> simp [stripLength, hv]

lemma versionResults_strip (origText : String) (origTok : Nat)
    (target : Int) (i j : Nat) (vs : List RVersion) :
    versionResults origText origTok target i j (vs.map stripVersion) =
      versionResults origText origTok target i j vs := by
  unfold versionResults
  rw [List.length_map]
  congr 1
  funext k
  rw [getD_map_stripVersion, processVersion_strip]

lemma processLength_strip (origText : String) (origTok : Nat) (vp : Int)
    (i j : Nat) (target : Int) (lopt : Option RLength) :
    processLength origText origTok vp i j target (lopt.map stripLength) =
      processLength origText origTok vp i j target lopt := by
  cases lopt with
  | none => rfl
  | some l =>
    unfold processLength
    simp only [Option.map_some']
    rw [lengthFalsy_strip]
    cases hfb : lengthFalsy l with
    | true => simp
    | false =>
      simp only [Bool.false_eq_true, if_false]
      rw [stripLength_versions_getD, versionResults_strip]

lemma lengthResults_strip (params : Params) (targets : List Int)
    (origText : String) (i : Nat) (ls : List RLength) :
    lengthResults params targets origText i (ls.map stripLength) =
      lengthResults params targets origText i ls := by
  unfold lengthResults
  congr 1
  funext j
  rw [List.length_map]
  by_cases hj : j < ls.length
  · rw [if_pos hj, if_pos hj, getD_map_stripLength,
      show some (stripLength (ls.getD j {})) =
        (some (ls.getD j {})).map stripLength from rfl,
      processLength_strip]
  · rw [if_neg hj, if_neg hj]

lemma formatProcessFragment_strip (params : Params) (targets : List Int)
    (fs : List RFragment) (i : Nat) (origText : String) :
    formatProcessFragment params targets (fs.map stripFragment) i origText =
      formatProcessFragment params targets fs i origText := by
  unfold formatProcessFragment
  rw [List.length_map, getD_map_stripFragment]
  by_cases hi : i < fs.length
  · rw [if_pos hi, if_pos hi]
    cases hfl : (fs.getD i {}).lengths with
    | none => simp only [stripFragment, hfl, Option.map_none']
    | some ls =>
      simp only [stripFragment, hfl, Option.map_some']
      rw [lengthResults_strip]
  · rw [if_neg hi, if_neg hi]

lemma convertResponse_strip (content : ContentInput) (r : RResponse) :
    convertResponse content (stripResponse r) =
      stripResponse (convertResponse content r) := by
  unfold convertResponse
  cases content with
  | frags ts => simp [ContentInput.isFragments]
  | single t =>
    simp only [ContentInput.isFragments, Bool.false_eq_true, if_false]
    cases hrl : r.lengths with
    | none => simp [stripResponse, hrl]
    | some ls => simp [stripResponse, hrl, stripFragment]

lemma fragments_getD_strip (r : RResponse) :
    (stripResponse r).fragments.getD [] =
      (r.fragments.getD []).map stripFragment := by
  cases hrf : r.fragments <;> simp [stripResponse, hrf]

lemma fragmentResults_strip (params : Params) (targets : List Int)
    (contentList : List String) (fs : List RFragment) :
    fragmentResults params targets contentList (fs.map stripFragment) =
      fragmentResults params targets contentList fs := by
  unfold fragmentResults
  congr 1
  funext i
  rw [formatProcessFragment_strip]

lemma formatResponse_strip (aiResponse : RResponse) (params : Params)
    (content : ContentInput) (operation : String)
    (validationWarnings : List FWarn) :
    formatResponse (stripResponse aiResponse) params content operation
      validationWarnings =
      formatResponse aiResponse params content operation
        validationWarnings := by
  unfold formatResponse
  cases hop : (operation == "rephrase") with
  | true => rfl
  | false =>
    simp only [Bool.false_eq_true, if_false]
    rw [convertResponse_strip, fragments_getD_strip]
    simp only [fragmentResults_strip]

/-- A version the formatter accepts without any warning: its `text` is
present and its realized percentage stays within the 0.2 tolerance of the
target. -/
def versionOK (origTok : Nat) (target : Int) (v : RVersion) : Bool :=
  match v.text with
  | none => false
  | some txt =>
    decide (|pyRound1 (count_tokens txt * 100) origTok - (target : ℚ)| /
      (target : ℚ) ≤ 1 / 5)

/-- A length entry the formatter accepts without warnings: truthy, and all
its versions (possibly none — a missing `versions` key draws no warning)
pass `versionOK`. -/
def lengthOK (origTok : Nat) (target : Int) (l : RLength) : Bool :=
  !(lengthFalsy l) && (l.versions.getD []).all (fun v =>
    versionOK origTok target v)

/-- A fragment the formatter accepts without warnings: non-empty original
text, a `lengths` key with at least as many entries as planned, and every
planned slot holding a warning-free length entry at a non-zero target. -/
def fragmentOK (origText : String) (targets : List Int) (f : RFragment) :
    Bool :=
  decide (count_tokens origText ≠ 0) &&
  (match f.lengths with
   | none => false
   | some ls =>
     decide (targets.length ≤ ls.length) &&
     (List.range targets.length).all (fun j =>
       decide (targets.getD j 0 ≠ 0) &&
       lengthOK (count_tokens origText) (targets.getD j 0) (ls.getD j {})))

/-- A fully plan-compliant response: after input normalization it supplies
at least one fragment per content item and every expected fragment passes
`fragmentOK` against the plan. -/
def compliantResponse (content : ContentInput) (targets : List Int)
    (r : RResponse) : Bool :=
  decide (content.list.length ≤
    ((convertResponse content r).fragments.getD []).length) &&
  (List.range content.list.length).all (fun i =>
    fragmentOK (content.list.getD i "") targets
      (((convertResponse content r).fragments.getD []).getD i {}))

lemma processVersion_ok (origText : String) (origTok : Nat) (target : Int)
    (i j k : Nat) (v : RVersion)
    (ho : ¬ origTok = 0) (ht : ¬ target = 0)
    (h : versionOK origTok target v = true) :
    ∃ txt, v.text = some txt ∧
      processVersion origText origTok target i j k v =
        (some ⟨txt, count_tokens txt,
          pyRound1 (count_tokens txt * 100) origTok⟩, []) := by
  unfold versionOK at h
  cases hvt : v.text with
  | none => rw [hvt] at h; simp at h
  | some txt =>
    rw [hvt] at h
    have hle := of_decide_eq_true h
    refine ⟨txt, rfl, ?_⟩
    unfold processVersion
    rw [hvt]
    simp only [if_neg ho, if_neg ht, if_neg (not_lt.mpr hle),
      List.nil_append, List.append_nil]

lemma processLength_ok (origText : String) (origTok : Nat) (vp : Int)
    (i j : Nat) (target : Int) (l : RLength)
    (ho : ¬ origTok = 0) (ht : ¬ target = 0)
    (h : lengthOK origTok target l = true) :
    (processLength origText origTok vp i j target (some l)).2 = [] := by
  unfold lengthOK at h
  rw [Bool.and_eq_true] at h
  obtain ⟨hnf, hall⟩ := h
  have hfb : lengthFalsy l = false := by simpa using hnf
  unfold processLength
  simp only [hfb, Bool.false_eq_true, if_false]
  rw [List.flatten_eq_nil_iff]
  intro ws hws
  rw [List.mem_map] at hws
  obtain ⟨pair, hpair, rfl⟩ := hws
  unfold versionResults at hpair
  rw [List.mem_map] at hpair
  obtain ⟨k, hk, rfl⟩ := hpair
  rw [List.mem_range] at hk
  rw [List.all_eq_true] at hall
  have hvOK : versionOK origTok target ((l.versions.getD []).getD k {}) =
      true := by
    apply hall
    rw [List.getD_eq_getElem _ _ hk]
    exact List.getElem_mem hk
  obtain ⟨txt, -, heq⟩ := processVersion_ok origText origTok target i j k _
    ho ht hvOK
  rw [heq]

lemma formatProcessFragment_ok (params : Params) (targets : List Int)
    (fs : List RFragment) (i : Nat) (origText : String)
    (hi : i < fs.length)
    (hf : fragmentOK origText targets (fs.getD i {}) = true) :
    (formatProcessFragment params targets fs i origText).2 = [] := by
  unfold fragmentOK at hf
  rw [Bool.and_eq_true] at hf
  obtain ⟨hot, hrest⟩ := hf
  have ho : ¬ count_tokens origText = 0 := of_decide_eq_true hot
  unfold formatProcessFragment
  rw [if_pos hi]
  cases hfl : (fs.getD i {}).lengths with
  | none => rw [hfl] at hrest; simp at hrest
  | some ls =>
    rw [hfl] at hrest
    rw [Bool.and_eq_true] at hrest
    obtain ⟨hlen, hall⟩ := hrest
    rw [List.flatten_eq_nil_iff]
    intro ws hws
    rw [List.mem_map] at hws
    obtain ⟨pair, hpair, rfl⟩ := hws
    unfold lengthResults at hpair
    rw [List.mem_map] at hpair
    obtain ⟨j, hj, rfl⟩ := hpair
    rw [List.mem_range] at hj
    rw [List.all_eq_true] at hall
    have hj2 := hall j (by rw [List.mem_range]; exact hj)
    rw [Bool.and_eq_true] at hj2
    obtain ⟨htz, hlok⟩ := hj2
    have ht : ¬ targets.getD j 0 = 0 := of_decide_eq_true htz
    have hjl : j < ls.length :=
      lt_of_lt_of_le hj (of_decide_eq_true hlen)
    rw [if_pos hjl]
    exact processLength_ok origText (count_tokens origText) _ i j _ _
      ho ht hlok

/-- C7: (1) the formatter's output depends on the LLM response only through
the stripped texts — two responses with identical texts but different
self-reported token/percentage values format identically; (2) every emitted
version's `final_tokens` and `final_percentage` are recomputed from its
text by the Token Estimator, with
`final_percentage = round(final_tokens / original_tokens * 100, 1)`;
(3) a fully plan-compliant response reconciles to a normal result carrying
no warnings. -/
theorem c7_computed_from_text :
    (∀ (r r' : RResponse) (params : Params) (content : ContentInput)
      (op : String) (vw : List FWarn),
      stripResponse r = stripResponse r' →
      formatResponse r params content op vw =
        formatResponse r' params content op vw) ∧
    (∀ (origText : String) (origTok : Nat) (target : Int) (i j k : Nat)
      (v : RVersion) (out : OVersion) (ws : List FWarn),
      processVersion origText origTok target i j k v = (some out, ws) →
      out.final_tokens = count_tokens out.text ∧
      out.final_percentage =
        pyRound1 (count_tokens out.text * 100) origTok) ∧
    (∀ (r : RResponse) (params : Params) (content : ContentInput)
      (op : String) (targets : List Int),
      op ≠ "rephrase" →
      getTargetPercentagesF params op = .ok targets →
      compliantResponse content targets r = true →
      ∃ res, formatResponse r params content op [] = .ok res ∧
        res.warnings = none) := by
  refine ⟨?_, ?_, ?_⟩
  · intro r r' params content op vw h
    rw [← formatResponse_strip r, h, formatResponse_strip]
  · intro origText origTok target i j k v out ws hpv
    unfold processVersion at hpv
    by_cases ho : origTok = 0
    · simp [ho] at hpv
    · by_cases ht : target = 0
      · simp [ho, ht] at hpv
      · cases hvt : v.text with
        | none =>
          rw [hvt] at hpv
          simp only [if_neg ho, if_neg ht, Prod.mk.injEq,
            Option.some.injEq] at hpv
          rw [← hpv.1]
          exact ⟨rfl, rfl⟩
        | some txt =>
          rw [hvt] at hpv
          simp only [if_neg ho, if_neg ht, Prod.mk.injEq,
            Option.some.injEq] at hpv
          rw [← hpv.1]
          exact ⟨rfl, rfl⟩
  · intro r params content op targets hop htargets hc
    unfold compliantResponse at hc
    rw [Bool.and_eq_true] at hc
    obtain ⟨hlen, hall⟩ := hc
    unfold formatResponse
    have hbeq : (op == "rephrase") = false := beq_eq_false_iff_ne.mpr hop
    rw [hbeq]
    simp only [Bool.false_eq_true, if_false]
    rw [htargets]
    have hwnil : ((fragmentResults params targets content.list
        ((convertResponse content r).fragments.getD [])).map
          Prod.snd).flatten = [] := by
      rw [List.flatten_eq_nil_iff]
      intro ws hws
      rw [List.mem_map] at hws
      obtain ⟨pair, hpair, rfl⟩ := hws
      unfold fragmentResults at hpair
      rw [List.mem_map] at hpair
      obtain ⟨i, hi, rfl⟩ := hpair
      rw [List.mem_range] at hi
      rw [List.all_eq_true] at hall
      have hfOK := hall i (by rw [List.mem_range]; exact hi)
      exact formatProcessFragment_ok params targets _ i _
        (lt_of_lt_of_le hi (of_decide_eq_true hlen)) hfOK
    refine ⟨_, rfl, ?_⟩
    simp [hwnil]

def c7r1 : RResponse :=
  ⟨none, some [⟨some 50, some [⟨some "a b", some 999, none⟩]⟩]⟩

def c7r2 : RResponse :=
  ⟨none, some [⟨some 50, some [⟨some "a b", some 1, none⟩]⟩]⟩

def c7rc : RResponse := ⟨none, some [⟨some 50, some []⟩]⟩

/-- Witness for C7: the two single-text responses differ only in a
self-reported token count (999 vs 1) and format identically; a compliant
response reconciles to a normal result with no warnings. -/
theorem c7_computed_from_text_witness :
    formatResponse c7r1 { target_percentage := some 50 }
      (.single "a b c d") "compress" [] =
    formatResponse c7r2 { target_percentage := some 50 }
      (.single "a b c d") "compress" [] ∧
    ∃ res, formatResponse c7rc { target_percentage := some 50 }
      (.single "a b c d") "compress" [] = .ok res ∧
      res.warnings = none := by
  refine ⟨c7_computed_from_text.1 c7r1 c7r2 { target_percentage := some 50 }
    (.single "a b c d") "compress" [] (by decide), ?_⟩
  exact c7_computed_from_text.2.2 c7rc { target_percentage := some 50 }
    (.single "a b c d") "compress" [50] (by decide) rfl (by decide)

end FragmentEditor
